import Mathlib

/-!
Shallow embedding of the Availability & Reservation Engine of the
workshop-booking application (routes/attendee.js and routes/organiser.js),
together with proofs of the spec's claims about it.

The data model mirrors the SQLite tables (db_schema.sql); each route
handler that the claims touch is translated into a pure function on an
explicit database state.
-/

namespace Engine

/-- Ticket tiers: the application uses exactly the two labels
`full` and `concession` (tickets.type). -/
inductive Tier
  | full
  | concession
deriving DecidableEq, Repr

/-- events.status: the routes only distinguish draft from published. -/
inductive EventStatus
  | draft
  | published
deriving DecidableEq, Repr

/-- waitlist.status values used by the routes. -/
inductive WaitStatus
  | waiting
  | notified
  | removed
deriving DecidableEq, Repr

/-- A row of the events table (fields the engine reads). -/
structure Event where
  eventId : Nat
  title : String
  status : EventStatus
  /-- event_date, abstracted to an integer day number (the code compares
  `new Date(event.event_date)` against today's midnight). -/
  eventDate : Int
deriving DecidableEq, Repr

/-- A row of the tickets table. -/
structure Ticket where
  eventId : Nat
  type : Tier
  quantity : Int
  price : Int
deriving DecidableEq, Repr

/-- A row of the bookings table. -/
structure Booking where
  eventId : Nat
  attendeeName : String
  attendeeEmail : Option String
  ticketType : Tier
  quantity : Int
  /-- booking_date, abstracted to a numeric timestamp. -/
  bookingDate : Nat
  dietaryNotes : Option String
deriving DecidableEq, Repr

/-- A row of the waitlist table. -/
structure WaitlistEntry where
  waitlistId : Nat
  eventId : Nat
  attendeeName : String
  attendeeEmail : String
  ticketType : Tier
  quantity : Int
  /-- requested_at, abstracted to a numeric timestamp. -/
  requestedAt : Nat
  status : WaitStatus
  notifiedAt : Option Nat
deriving DecidableEq, Repr

/-- The database state the engine reads and writes.  `nextWaitlistId`
models the AUTOINCREMENT primary key of the waitlist table. -/
structure DB where
  events : List Event
  tickets : List Ticket
  bookings : List Booking
  waitlist : List WaitlistEntry
  nextWaitlistId : Nat
deriving DecidableEq, Repr

/-- MAX_TICKETS_PER_BOOKING from routes/attendee.js. -/
def maxTicketsPerBooking : Int := 10

/-- The character class `\s` of JavaScript regular expressions:
ECMAScript WhiteSpace plus LineTerminator. -/
def isJsWhitespace (c : Char) : Bool :=
  c == '\t' || c == '\n' || c == '\x0b' || c == '\x0c' || c == '\r' ||
  c == ' ' || c == '\u00a0' || c == '\u1680' ||
  ('\u2000' ≤ c && c ≤ '\u200a') || c == '\u2028' || c == '\u2029' ||
  c == '\u202f' || c == '\u205f' || c == '\u3000' || c == '\ufeff'

/-- A character admitted by `[^\s@]`. -/
def emailChunkChar (c : Char) : Bool :=
  !isJsWhitespace c && c != '@'

/-- Whether the list contains a '.' that has at least one character after
it. -/
def dotFollowed : List Char → Bool
  | [] => false
  | c :: t => (c == '.' && !t.isEmpty) || dotFollowed t

/-- Whether the list contains a '.' with at least one character before it
and at least one after it — the `[^\s@]+\.[^\s@]+` split point of the
domain (the surrounding chunks may themselves contain dots, since '.' is
in `[^\s@]`). -/
def hasInteriorDot : List Char → Bool
  | [] => false
  | _ :: t => dotFollowed t

/-- Translated from `isValidEmail` in utils/helpers.js: an empty input is
accepted (`if (!email) return true`), otherwise the string must match
`/^[^\s@]+@[^\s@]+\.[^\s@]+$/`.  A string matches that anchored pattern
exactly when it decomposes as `A ++ "@" ++ B ++ "." ++ C` with `A`, `B`,
`C` nonempty and free of whitespace and '@' — equivalently: exactly one
'@' (so `splitOn` yields two parts), every remaining character outside
`\s`, a nonempty local part, and a '.' inside the domain with at least
one character on each side. -/
def isValidEmail (s : String) : Bool :=
  if s = "" then true
  else
    match s.data.splitOn '@' with
    | [loc, dom] =>
        !loc.isEmpty && loc.all emailChunkChar && dom.all emailChunkChar &&
        hasInteriorDot dom
    | _ => false

/-- Models `SELECT ticket_type, SUM(quantity) ... GROUP BY ticket_type` followed by
`bookings.find(b => b.ticket_type === t.type)`: the summed booked quantity
for one (event, tier), defaulting to 0 when no booking row exists. -/
def bookedSum (bs : List Booking) (eid : Nat) (t : Tier) : Int :=
  ((bs.filter (fun b => b.eventId == eid && b.ticketType == t)).map
    (fun b => b.quantity)).sum

/-- Models `tickets.forEach(t => available[t.type] = t.quantity - booked)`:
for duplicate ticket rows of the same type the last assignment wins, and a
type with no ticket row stays `undefined` (`none`). -/
def availEntry (db : DB) (eid : Nat) (t : Tier) : Option Int :=
  ((db.tickets.filter (fun tk => tk.eventId == eid && tk.type == t)).getLast?).map
    (fun tk => tk.quantity - bookedSum db.bookings eid t)

/-- Models `available[type] || 0`: JavaScript `||` sends `undefined` to 0 and keeps
every number except 0, which it also sends to 0 — i.e. `Option.getD 0`. -/
def remainingOf (db : DB) (eid : Nat) (t : Tier) : Int :=
  (availEntry db eid t).getD 0

/-- Models `SELECT * FROM events WHERE event_id = ? AND status = 'published'`. -/
def findPublishedEvent (db : DB) (eid : Nat) : Option Event :=
  db.events.find? (fun e => e.eventId == eid && e.status == EventStatus.published)

-- ---------------------------------------------------------------------------
-- POST /attendee/event/:id/book
-- ---------------------------------------------------------------------------

/-- The booking form after the route's parsing step: `attendeeName` is
`sanitizeInput(req.body.attendee_name || '').trim()` (likewise email and
dietary notes), `fullQty`/`concessionQty` are
`parseInt(req.body.*_quantity) || 0` — which can be negative. -/
structure BookRequest where
  attendeeName : String
  attendeeEmail : String
  dietaryNotes : String
  fullQty : Int
  concessionQty : Int
deriving DecidableEq, Repr

/-- Outcome of the booking route: each flash-error redirect is one
constructor; the capacity errors carry the number shown in the message
(`Only ${available.x || 0} ... tickets available`). -/
inductive BookResult
  | nameError
  | emailError
  | noTickets
  | maxExceeded
  | eventNotFound
  | eventPassed
  | capacityFull (remaining : Int)
  | capacityConcession (remaining : Int)
  | success
deriving DecidableEq, Repr

/-- One row inserted by `insertBooking(type, qty, cb)`. -/
def mkBooking (eid : Nat) (r : BookRequest) (t : Tier) (qty : Int) (now : Nat) :
    Booking :=
  { eventId := eid
    attendeeName := r.attendeeName
    attendeeEmail := if r.attendeeEmail = "" then none else some r.attendeeEmail
    ticketType := t
    quantity := qty
    bookingDate := now
    dietaryNotes := if r.dietaryNotes = "" then none else some r.dietaryNotes }

/-- Models `insertBooking('full', fullQty, ...)` then
`insertBooking('concession', concessionQty, ...)`: each inserts only when
its quantity is > 0. -/
def commitBookings (db : DB) (eid : Nat) (r : BookRequest) (now : Nat) : DB :=
  let db1 :=
    if r.fullQty > 0 then
      { db with bookings := db.bookings ++ [mkBooking eid r Tier.full r.fullQty now] }
    else db
  if r.concessionQty > 0 then
    { db1 with bookings := db1.bookings ++ [mkBooking eid r Tier.concession r.concessionQty now] }
  else db1

/-- POST /attendee/event/:id/book (routes/attendee.js).  `today` is the
midnight used in `eventDate < today`; `now` is the shared booking_date
timestamp.  Checks run in source order and short-circuit. -/
def bookRoute (db : DB) (eid : Nat) (r : BookRequest) (today : Int) (now : Nat) :
    BookResult × DB :=
  if r.attendeeName = "" ∨ r.attendeeName.length < 2 then
    (BookResult.nameError, db)
  else if r.attendeeEmail ≠ "" ∧ isValidEmail r.attendeeEmail = false then
    (BookResult.emailError, db)
  else if r.fullQty + r.concessionQty = 0 then
    (BookResult.noTickets, db)
  else if r.fullQty + r.concessionQty > maxTicketsPerBooking then
    (BookResult.maxExceeded, db)
  else
    match findPublishedEvent db eid with
    | none => (BookResult.eventNotFound, db)
    | some ev =>
      if ev.eventDate < today then
        (BookResult.eventPassed, db)
      else if r.fullQty > remainingOf db eid Tier.full then
        (BookResult.capacityFull (remainingOf db eid Tier.full), db)
      else if r.concessionQty > remainingOf db eid Tier.concession then
        (BookResult.capacityConcession (remainingOf db eid Tier.concession), db)
      else
        (BookResult.success, commitBookings db eid r now)

-- ---------------------------------------------------------------------------
-- GET /attendee/event/:id  (capacity ledger: remaining + sold-out)
-- ---------------------------------------------------------------------------

/-- Models `tickets.map(ticket => ({...ticket, remaining: Math.max(0, remaining)}))`:
the per-tier clamped remaining list of the event page. -/
def computeRemaining (db : DB) (eid : Nat) : List (Tier × Int) :=
  (db.tickets.filter (fun tk => tk.eventId == eid)).map
    (fun tk => (tk.type, max 0 (tk.quantity - bookedSum db.bookings eid tk.type)))

/-- Models `totalRemaining += Math.max(0, remaining)` accumulated over the same
ticket rows. -/
def totalRemaining (db : DB) (eid : Nat) : Int :=
  ((computeRemaining db eid).map (fun pr => pr.2)).sum

/-- Models `const isSoldOut = totalRemaining === 0`. -/
def isSoldOut (db : DB) (eid : Nat) : Bool :=
  totalRemaining db eid == 0

-- ---------------------------------------------------------------------------
-- POST /attendee/event/:id/waitlist
-- ---------------------------------------------------------------------------

/-- The waitlist form after parsing: `ticketType` is
`req.body.ticket_type || 'full'`, `quantity` is
`parseInt(req.body.quantity) || 1`. -/
structure WaitRequest where
  attendeeName : String
  attendeeEmail : String
  ticketType : Tier
  quantity : Int
deriving DecidableEq, Repr

/-- Outcome of the waitlist-join route; `joined` carries the position
reported by the COUNT(*) query after the insert. -/
inductive WaitResult
  | nameError
  | emailError
  | quantityError
  | eventNotFound
  | alreadyOnWaitlist
  | joined (position : Nat)
deriving DecidableEq, Repr

/-- Whether a waitlist-join outcome was an accepted insert. -/
def WaitResult.isJoined : WaitResult → Bool
  | WaitResult.joined _ => true
  | _ => false

/-- The row inserted by the waitlist INSERT (status 'waiting'). -/
def mkWaitlistEntry (db : DB) (eid : Nat) (r : WaitRequest) (now : Nat) :
    WaitlistEntry :=
  { waitlistId := db.nextWaitlistId
    eventId := eid
    attendeeName := r.attendeeName
    attendeeEmail := r.attendeeEmail
    ticketType := r.ticketType
    quantity := r.quantity
    requestedAt := now
    status := WaitStatus.waiting
    notifiedAt := none }

/-- The INSERT into waitlist (a fresh row, AUTOINCREMENT id). -/
def joinInsert (db : DB) (eid : Nat) (r : WaitRequest) (now : Nat) : DB :=
  { db with
    waitlist := db.waitlist ++ [mkWaitlistEntry db eid r now]
    nextWaitlistId := db.nextWaitlistId + 1 }

/-- Models `SELECT COUNT(*) FROM waitlist WHERE event_id = ? AND status =
'waiting' AND requested_at <= ?`: the position reported after the insert. -/
def joinPosition (db : DB) (eid : Nat) (now : Nat) : Nat :=
  (db.waitlist.filter (fun w =>
    w.eventId == eid && w.status == WaitStatus.waiting &&
    decide (w.requestedAt ≤ now))).length

/-- POST /attendee/event/:id/waitlist (routes/attendee.js): validation in
source order, duplicate check
(`SELECT * FROM waitlist WHERE event_id = ? AND attendee_email = ? AND
status = 'waiting'`), insert, then the position COUNT query. -/
def waitlistRoute (db : DB) (eid : Nat) (r : WaitRequest) (now : Nat) :
    WaitResult × DB :=
  if r.attendeeName = "" ∨ r.attendeeName.length < 2 then
    (WaitResult.nameError, db)
  else if r.attendeeEmail = "" ∨ isValidEmail r.attendeeEmail = false then
    (WaitResult.emailError, db)
  else if r.quantity < 1 ∨ r.quantity > maxTicketsPerBooking then
    (WaitResult.quantityError, db)
  else
    match findPublishedEvent db eid with
    | none => (WaitResult.eventNotFound, db)
    | some _ =>
      match db.waitlist.find? (fun w =>
          w.eventId == eid && w.attendeeEmail == r.attendeeEmail &&
          w.status == WaitStatus.waiting) with
      | some _ => (WaitResult.alreadyOnWaitlist, db)
      | none =>
        (WaitResult.joined (joinPosition (joinInsert db eid r now) eid now),
         joinInsert db eid r now)

-- ---------------------------------------------------------------------------
-- POST /organiser/waitlist/remove/:id and /organiser/waitlist/notify/:id
-- ---------------------------------------------------------------------------

/-- Models `UPDATE waitlist SET status = 'removed' WHERE waitlist_id = ?`
(no condition on the current status). -/
def removeWaitlist (db : DB) (wid : Nat) : DB :=
  { db with waitlist := db.waitlist.map (fun w =>
      if w.waitlistId = wid then { w with status := WaitStatus.removed } else w) }

/-- Models `UPDATE waitlist SET status = 'notified', notified_at = ? WHERE
waitlist_id = ?` (no condition on the current status). -/
def notifyWaitlist (db : DB) (wid : Nat) (now : Nat) : DB :=
  { db with waitlist := db.waitlist.map (fun w =>
      if w.waitlistId = wid then
        { w with status := WaitStatus.notified, notifiedAt := some now }
      else w) }

-- ---------------------------------------------------------------------------
-- GET /organiser/waitlist  (listWaiting)
-- ---------------------------------------------------------------------------

/-- One row of the waitlist JOIN events query (the fields the grouping and
ordering read). -/
structure WaitRow where
  entry : WaitlistEntry
  eventDate : Int
deriving DecidableEq, Repr

/-- Models `FROM waitlist w JOIN events e ON w.event_id = e.event_id WHERE
w.status = 'waiting'`: waiting entries paired with their event's date;
entries whose event is missing drop out of the inner join. -/
def waitRows (db : DB) : List WaitRow :=
  db.waitlist.filterMap (fun w =>
    if w.status = WaitStatus.waiting then
      (db.events.find? (fun e => e.eventId == w.eventId)).map
        (fun e => { entry := w, eventDate := e.eventDate })
    else none)

/-- Models `ORDER BY e.event_date ASC, w.requested_at ASC`. -/
def rowLe (a b : WaitRow) : Prop :=
  a.eventDate < b.eventDate ∨
    (a.eventDate = b.eventDate ∧ a.entry.requestedAt ≤ b.entry.requestedAt)

instance : DecidableRel rowLe := fun a b => by
  unfold rowLe
  infer_instance

/-- The distinct event ids of the result rows in ascending order:
`groupedByEvent` is a JavaScript object keyed by the integer-like
`event_id`, and `Object.values` enumerates integer keys in ascending
numeric order. -/
def eventIdsAsc (rows : List WaitRow) : List Nat :=
  List.insertionSort (fun a b => a ≤ b) ((rows.map (fun rw => rw.entry.eventId)).dedup)

/-- The query's result rows in `ORDER BY e.event_date ASC,
w.requested_at ASC` order. -/
def sortedRows (db : DB) : List WaitRow :=
  List.insertionSort rowLe (waitRows db)

/-- GET /organiser/waitlist: the sorted rows, grouped per event, each
entry paired with its recomputed position `index + 1` within its group. -/
def listWaiting (db : DB) : List (Nat × List (WaitRow × Nat)) :=
  (eventIdsAsc (sortedRows db)).map (fun eid =>
    (eid, (((sortedRows db).filter (fun rw => rw.entry.eventId == eid)).enum).map
      (fun p => (p.2, p.1 + 1))))

/-- The waiting entries of the whole waitlist table, in table order. -/
def waitingEntries (db : DB) : List WaitlistEntry :=
  db.waitlist.filter (fun w => w.status == WaitStatus.waiting)

-- ---------------------------------------------------------------------------
-- Operation sequences and invariants
-- ---------------------------------------------------------------------------

/-- One sequentially executed request against the engine. -/
inductive Op
  | book (eid : Nat) (r : BookRequest) (today : Int) (now : Nat)
  | joinWaitlist (eid : Nat) (r : WaitRequest) (now : Nat)
  | removeEntry (wid : Nat)
  | notifyEntry (wid : Nat) (now : Nat)
deriving DecidableEq, Repr

/-- The state after one request (responses discarded). -/
def applyOp (db : DB) : Op → DB
  | Op.book eid r today now => (bookRoute db eid r today now).2
  | Op.joinWaitlist eid r now => (waitlistRoute db eid r now).2
  | Op.removeEntry wid => removeWaitlist db wid
  | Op.notifyEntry wid now => notifyWaitlist db wid now

/-- The state after a sequence of sequentially executed requests. -/
def runOps (db : DB) (ops : List Op) : DB :=
  ops.foldl applyOp db

/-- The data-model invariant "at most one TicketTier row per
(event, tier-label) pair". -/
def TicketsUnique (db : DB) : Prop :=
  db.tickets.Pairwise (fun a b => ¬(a.eventId = b.eventId ∧ a.type = b.type))

/-- Conservation: every configured tier bounds the summed committed
booking quantities for it. -/
def Conserved (db : DB) : Prop :=
  ∀ tk ∈ db.tickets, bookedSum db.bookings tk.eventId tk.type ≤ tk.quantity

/-- At most one waiting waitlist entry per (event, email) pair. -/
def AtMostOneWaiting (db : DB) : Prop :=
  db.waitlist.Pairwise (fun a b =>
    a.status = WaitStatus.waiting → b.status = WaitStatus.waiting →
    a.eventId = b.eventId → a.attendeeEmail ≠ b.attendeeEmail)

-- ---------------------------------------------------------------------------
-- Concrete states and requests (the spec's scenario of §8 and variants)
-- ---------------------------------------------------------------------------

/-- Event E of the spec's scenario: published, two tiers,
`full` quantity 2 price 10, `concession` quantity 1 price 5. -/
def dbScenario : DB :=
  { events := [{ eventId := 1, title := "E", status := EventStatus.published,
                 eventDate := 10 }]
    tickets := [{ eventId := 1, type := Tier.full, quantity := 2, price := 10 },
                { eventId := 1, type := Tier.concession, quantity := 1, price := 5 }]
    bookings := []
    waitlist := []
    nextWaitlistId := 1 }

/-- Alice's request {full: 2, concession: 0}. -/
def reqAlice : BookRequest :=
  { attendeeName := "Alice", attendeeEmail := "", dietaryNotes := "",
    fullQty := 2, concessionQty := 0 }

/-- Bob's request {full: 1}. -/
def reqBob : BookRequest :=
  { attendeeName := "Bob", attendeeEmail := "", dietaryNotes := "",
    fullQty := 1, concessionQty := 0 }

/-- The scenario's two sequential booking requests. -/
def opsScenario : List Op :=
  [Op.book 1 reqAlice 0 100, Op.book 1 reqBob 0 200]

/-- The state after Alice's committed booking. -/
def dbAfterAlice : DB :=
  (bookRoute dbScenario 1 reqAlice 0 100).2

/-- A booking request whose attendee name has 101 characters. -/
def reqLongName : BookRequest :=
  { attendeeName := String.mk (List.replicate 101 'a'), attendeeEmail := "",
    dietaryNotes := "", fullQty := 1, concessionQty := 0 }

/-- A published event with ample capacity on both tiers. -/
def dbRoomy : DB :=
  { events := [{ eventId := 1, title := "E", status := EventStatus.published,
                 eventDate := 10 }]
    tickets := [{ eventId := 1, type := Tier.full, quantity := 5, price := 10 },
                { eventId := 1, type := Tier.concession, quantity := 5, price := 5 }]
    bookings := []
    waitlist := []
    nextWaitlistId := 1 }

/-- A single waitlist entry already in the terminal state `notified`. -/
def dbNotified : DB :=
  { events := [{ eventId := 1, title := "E", status := EventStatus.published,
                 eventDate := 10 }]
    tickets := []
    bookings := []
    waitlist := [{ waitlistId := 1, eventId := 1, attendeeName := "Bob",
                   attendeeEmail := "bob@mail.io", ticketType := Tier.full,
                   quantity := 1, requestedAt := 100,
                   status := WaitStatus.notified, notifiedAt := some 100 }]
    nextWaitlistId := 2 }

/-- Two waiting entries for one event with strictly increasing
requested_at. -/
def dbFifo : DB :=
  { events := [{ eventId := 1, title := "E", status := EventStatus.published,
                 eventDate := 10 }]
    tickets := []
    bookings := []
    waitlist := [{ waitlistId := 1, eventId := 1, attendeeName := "Ann",
                   attendeeEmail := "ann@mail.io", ticketType := Tier.full,
                   quantity := 1, requestedAt := 1,
                   status := WaitStatus.waiting, notifiedAt := none },
                 { waitlistId := 2, eventId := 1, attendeeName := "Ben",
                   attendeeEmail := "ben@mail.io", ticketType := Tier.full,
                   quantity := 1, requestedAt := 2,
                   status := WaitStatus.waiting, notifiedAt := none }]
    nextWaitlistId := 3 }

/-- One waiting entry for (event 1, carol@mail.io). -/
def dbOneWaiting : DB :=
  { events := [{ eventId := 1, title := "E", status := EventStatus.published,
                 eventDate := 10 }]
    tickets := [{ eventId := 1, type := Tier.full, quantity := 5, price := 10 }]
    bookings := []
    waitlist := [{ waitlistId := 1, eventId := 1, attendeeName := "Carol",
                   attendeeEmail := "carol@mail.io", ticketType := Tier.full,
                   quantity := 1, requestedAt := 100,
                   status := WaitStatus.waiting, notifiedAt := none }]
    nextWaitlistId := 2 }

/-- A second waitlist join for (event 1, carol@mail.io). -/
def reqCarolAgain : WaitRequest :=
  { attendeeName := "Carol", attendeeEmail := "carol@mail.io",
    ticketType := Tier.full, quantity := 1 }

/-- A first waitlist join for (event 1, dave@mail.io). -/
def reqDave : WaitRequest :=
  { attendeeName := "Dave", attendeeEmail := "dave@mail.io",
    ticketType := Tier.full, quantity := 1 }

/-- A mixed sequence of requests against `dbOneWaiting`. -/
def opsAfterDup : List Op :=
  [Op.joinWaitlist 1 reqDave 150, Op.book 1 reqBob 0 200,
   Op.removeEntry 1, Op.notifyEntry 2 300]

/-- A booking request totalling 11 tickets. -/
def reqEleven : BookRequest :=
  { attendeeName := "Carl", attendeeEmail := "", dietaryNotes := "",
    fullQty := 6, concessionQty := 5 }

/-- The entry of `dbNotified` after the remove route ran on it. -/
def entryRemoved : WaitlistEntry :=
  { waitlistId := 1, eventId := 1, attendeeName := "Bob",
    attendeeEmail := "bob@mail.io", ticketType := Tier.full,
    quantity := 1, requestedAt := 100,
    status := WaitStatus.removed, notifiedAt := some 100 }

/-- The `full` ticket row of `dbScenario`. -/
def ticketFull1 : Ticket :=
  { eventId := 1, type := Tier.full, quantity := 2, price := 10 }

/-- The published event row shared by the concrete states. -/
def eventE : Event :=
  { eventId := 1, title := "E", status := EventStatus.published, eventDate := 10 }

/-- The `full` ticket row of `dbOneWaiting`. -/
def ticketFull5 : Ticket :=
  { eventId := 1, type := Tier.full, quantity := 5, price := 10 }

-- ---------------------------------------------------------------------------
-- Helper lemmas
-- ---------------------------------------------------------------------------

theorem bookedSum_append (bs bs' : List Booking) (eid : Nat) (t : Tier) :
    bookedSum (bs ++ bs') eid t = bookedSum bs eid t + bookedSum bs' eid t := by
  simp [bookedSum, List.filter_append]

theorem bookedSum_single (b : Booking) (eid : Nat) (t : Tier) :
    bookedSum [b] eid t =
      if b.eventId = eid ∧ b.ticketType = t then b.quantity else 0 := by
  by_cases h : b.eventId = eid ∧ b.ticketType = t
  · obtain ⟨h1, h2⟩ := h
    simp [bookedSum, List.filter_cons, h1, h2]
  · rw [if_neg h]
    rcases not_and_or.mp h with h1 | h1 <;>
      simp [bookedSum, List.filter_cons, h1]

theorem filter_eq_singleton_of_pairwise {α : Type} (l : List α) (p : α → Bool)
    (a : α) (ha : a ∈ l) (hpa : p a = true)
    (h : l.Pairwise (fun x y => ¬(p x = true ∧ p y = true))) :
    l.filter p = [a] := by
  induction l with
  | nil => cases ha
  | cons x t ih =>
    rw [List.pairwise_cons] at h
    rcases List.mem_cons.mp ha with rfl | hat
    · have hnil : t.filter p = [] :=
        List.filter_eq_nil_iff.mpr (fun y hy hpy => h.1 y hy ⟨hpa, hpy⟩)
      simp [List.filter_cons, hpa, hnil]
    · cases hpx : p x with
      | true => exact absurd ⟨hpx, hpa⟩ (h.1 a hat)
      | false => simp [List.filter_cons, hpx, ih hat h.2]

/-- With unique ticket rows, the route's `available[type]` is exactly the
ledger value: configured quantity minus summed bookings. -/
theorem availEntry_unique (db : DB) (tk : Ticket)
    (hU : TicketsUnique db) (htk : tk ∈ db.tickets) :
    availEntry db tk.eventId tk.type =
      some (tk.quantity - bookedSum db.bookings tk.eventId tk.type) := by
  have hfilter : db.tickets.filter
      (fun x => x.eventId == tk.eventId && x.type == tk.type) = [tk] := by
    apply filter_eq_singleton_of_pairwise _ _ tk htk
    · simp
    · refine hU.imp (fun {a b} hab hpq => ?_)
      obtain ⟨hpa, hpb⟩ := hpq
      simp only [Bool.and_eq_true, beq_iff_eq] at hpa hpb
      exact hab ⟨hpa.1.trans hpb.1.symm, hpa.2.trans hpb.2.symm⟩
  unfold availEntry
  rw [hfilter]
  rfl

theorem remainingOf_unique (db : DB) (tk : Ticket)
    (hU : TicketsUnique db) (htk : tk ∈ db.tickets) :
    remainingOf db tk.eventId tk.type =
      tk.quantity - bookedSum db.bookings tk.eventId tk.type := by
  unfold remainingOf
  rw [availEntry_unique db tk hU htk]
  rfl

theorem commitBookings_bookings (db : DB) (eid : Nat) (r : BookRequest)
    (now : Nat) :
    (commitBookings db eid r now).bookings =
      db.bookings ++
        (if r.fullQty > 0 then [mkBooking eid r Tier.full r.fullQty now] else []) ++
        (if r.concessionQty > 0 then
          [mkBooking eid r Tier.concession r.concessionQty now] else []) := by
  unfold commitBookings
  split_ifs <;> simp

theorem commitBookings_fields (db : DB) (eid : Nat) (r : BookRequest)
    (now : Nat) :
    (commitBookings db eid r now).tickets = db.tickets ∧
    (commitBookings db eid r now).events = db.events ∧
    (commitBookings db eid r now).waitlist = db.waitlist := by
  unfold commitBookings
  split_ifs <;> exact ⟨rfl, rfl, rfl⟩

/-- The booking route either leaves the state unchanged or commits after
both capacity guards passed. -/
theorem bookRoute_snd_cases (db : DB) (eid : Nat) (r : BookRequest)
    (today : Int) (now : Nat) :
    (bookRoute db eid r today now).2 = db ∨
      (r.fullQty ≤ remainingOf db eid Tier.full ∧
       r.concessionQty ≤ remainingOf db eid Tier.concession ∧
       (bookRoute db eid r today now).2 = commitBookings db eid r now) := by
  unfold bookRoute
  repeat' split
  any_goals (left; rfl)
  rename_i hfull hconc
  exact Or.inr ⟨le_of_not_lt hfull, le_of_not_lt hconc, rfl⟩

/-- A booking request that passes the name, email, total-quantity, event
and date gates reaches the two capacity checks. -/
theorem bookRoute_past_gates (db : DB) (eid : Nat) (r : BookRequest)
    (today : Int) (now : Nat) (ev : Event)
    (hname : 2 ≤ r.attendeeName.length)
    (hemail : r.attendeeEmail = "" ∨ isValidEmail r.attendeeEmail = true)
    (htot0 : r.fullQty + r.concessionQty ≠ 0)
    (htotmax : r.fullQty + r.concessionQty ≤ maxTicketsPerBooking)
    (hev : findPublishedEvent db eid = some ev)
    (hdate : ¬ ev.eventDate < today) :
    bookRoute db eid r today now =
      if r.fullQty > remainingOf db eid Tier.full then
        (BookResult.capacityFull (remainingOf db eid Tier.full), db)
      else if r.concessionQty > remainingOf db eid Tier.concession then
        (BookResult.capacityConcession (remainingOf db eid Tier.concession), db)
      else
        (BookResult.success, commitBookings db eid r now) := by
  have h1 : ¬ (r.attendeeName = "" ∨ r.attendeeName.length < 2) := by
    rintro (he | hl)
    · rw [he] at hname
      exact absurd hname (by decide)
    · omega
  have h2 : ¬ (r.attendeeEmail ≠ "" ∧ isValidEmail r.attendeeEmail = false) := by
    rcases hemail with he | hv
    · exact fun hc => hc.1 he
    · intro hc
      rw [hv] at hc
      exact absurd hc.2 (by decide)
  have h4 : ¬ (r.fullQty + r.concessionQty > maxTicketsPerBooking) :=
    not_lt.mpr htotmax
  unfold bookRoute
  rw [if_neg h1, if_neg h2, if_neg htot0, if_neg h4]
  simp only [hev]
  rw [if_neg hdate]

theorem bookedSum_optRow (c : Prop) [Decidable c] (b : Booking) (e : Nat)
    (t : Tier) :
    bookedSum (if c then [b] else []) e t =
      if c ∧ b.eventId = e ∧ b.ticketType = t then b.quantity else 0 := by
  by_cases hc : c
  · rw [if_pos hc, bookedSum_single]
    by_cases hbt : b.eventId = e ∧ b.ticketType = t
    · rw [if_pos hbt, if_pos ⟨hc, hbt⟩]
    · rw [if_neg hbt, if_neg (fun h => hbt h.2)]
  · rw [if_neg hc, if_neg (fun h => hc h.1)]
    rfl

theorem bookedSum_mkRow (c : Prop) [Decidable c] (eid : Nat) (r : BookRequest)
    (t : Tier) (qty : Int) (now : Nat) (e : Nat) (t' : Tier) :
    bookedSum (if c then [mkBooking eid r t qty now] else []) e t' =
      if c ∧ eid = e ∧ t = t' then qty else 0 := by
  rw [bookedSum_optRow]
  rfl

theorem waitlistRoute_fixed (db : DB) (eid : Nat) (r : WaitRequest)
    (now : Nat) :
    (waitlistRoute db eid r now).2.bookings = db.bookings ∧
    (waitlistRoute db eid r now).2.tickets = db.tickets := by
  unfold waitlistRoute
  repeat' split
  all_goals exact ⟨rfl, rfl⟩

theorem applyOp_tickets (db : DB) (op : Op) :
    (applyOp db op).tickets = db.tickets := by
  cases op with
  | book eid r today now =>
    show ((bookRoute db eid r today now).2).tickets = db.tickets
    rcases bookRoute_snd_cases db eid r today now with h | ⟨-, -, h⟩ <;> rw [h]
    exact (commitBookings_fields db eid r now).1
  | joinWaitlist eid r now => exact (waitlistRoute_fixed db eid r now).2
  | removeEntry wid => rfl
  | notifyEntry wid now => rfl

theorem conserved_of_fields {db db' : DB} (ht : db'.tickets = db.tickets)
    (hb : db'.bookings = db.bookings) (hC : Conserved db) : Conserved db' := by
  intro tk htk
  rw [ht] at htk
  rw [hb]
  exact hC tk htk

/-- One booking request preserves conservation: a commit happens only
after both capacity guards passed against the current ledger. -/
theorem conserved_book (db : DB) (eid : Nat) (r : BookRequest) (today : Int)
    (now : Nat) (hU : TicketsUnique db) (hC : Conserved db) :
    Conserved ((bookRoute db eid r today now).2) := by
  rcases bookRoute_snd_cases db eid r today now with h | ⟨hfull, hconc, h⟩
  · rw [h]
    exact hC
  · rw [h]
    intro tk htk
    rw [(commitBookings_fields db eid r now).1] at htk
    have hold := hC tk htk
    have hrem := remainingOf_unique db tk hU htk
    rw [commitBookings_bookings, List.append_assoc, bookedSum_append,
      bookedSum_append, bookedSum_mkRow, bookedSum_mkRow]
    split_ifs with hb1 hb2 hb2
    · exact absurd (hb1.2.2.trans hb2.2.2.symm) (by decide)
    · obtain ⟨-, heq, htq⟩ := hb1
      rw [heq, htq] at hfull
      rw [hrem] at hfull
      omega
    · obtain ⟨-, heq, htq⟩ := hb2
      rw [heq, htq] at hconc
      rw [hrem] at hconc
      omega
    · omega

theorem conserved_applyOp (db : DB) (op : Op) (hU : TicketsUnique db)
    (hC : Conserved db) : Conserved (applyOp db op) := by
  cases op with
  | book eid r today now => exact conserved_book db eid r today now hU hC
  | joinWaitlist eid r now =>
    exact conserved_of_fields (waitlistRoute_fixed db eid r now).2
      (waitlistRoute_fixed db eid r now).1 hC
  | removeEntry wid => exact conserved_of_fields rfl rfl hC
  | notifyEntry wid now => exact conserved_of_fields rfl rfl hC

theorem ticketsUnique_applyOp (db : DB) (op : Op) (hU : TicketsUnique db) :
    TicketsUnique (applyOp db op) := by
  unfold TicketsUnique at *
  rw [applyOp_tickets]
  exact hU

-- ---------------------------------------------------------------------------
-- C1: conservation under sequential validated commits
-- ---------------------------------------------------------------------------

/-- C1: starting from a state with unique ticket rows in which every
tier's booked sum is within its configured quantity, any sequence of
sequentially executed requests (each booking committed only after its
validation passed) keeps every tier's booked sum at most its configured
quantity — no oversell under sequential execution. -/
theorem booking_conservation (db : DB) (ops : List Op)
    (hU : TicketsUnique db) (hC : Conserved db) :
    Conserved (runOps db ops) := by
  induction ops generalizing db with
  | nil => exact hC
  | cons op rest ih =>
    exact ih (applyOp db op) (ticketsUnique_applyOp db op hU)
      (conserved_applyOp db op hU hC)

/-- Witness for C1: the spec's scenario — Alice books {full: 2}, then Bob
attempts {full: 1} — preserves conservation. -/
theorem booking_conservation_witness :
    TicketsUnique dbScenario ∧ Conserved dbScenario ∧
    Conserved (runOps dbScenario opsScenario) :=
  ⟨by unfold TicketsUnique; decide, by unfold Conserved; decide,
   booking_conservation dbScenario opsScenario
     (by unfold TicketsUnique; decide) (by unfold Conserved; decide)⟩

-- ---------------------------------------------------------------------------
-- C2: capacity rejection carries the true remaining count
-- ---------------------------------------------------------------------------

/-- C2: a booking request that reaches the capacity step (all earlier
validation gates pass) and asks for more than some tier's unclamped
remaining is rejected with the capacity error carrying that tier's
remaining value, and no booking row is inserted; under unique ticket rows
the carried value is the true ledger remaining, configured quantity minus
summed bookings. -/
theorem capacity_rejection (db : DB) (eid : Nat) (r : BookRequest)
    (today : Int) (now : Nat) (ev : Event)
    (hU : TicketsUnique db)
    (hname : 2 ≤ r.attendeeName.length)
    (hemail : r.attendeeEmail = "" ∨ isValidEmail r.attendeeEmail = true)
    (htot0 : r.fullQty + r.concessionQty ≠ 0)
    (htotmax : r.fullQty + r.concessionQty ≤ maxTicketsPerBooking)
    (hev : findPublishedEvent db eid = some ev)
    (hdate : ¬ ev.eventDate < today)
    (hexceed : r.fullQty > remainingOf db eid Tier.full ∨
      r.concessionQty > remainingOf db eid Tier.concession) :
    (bookRoute db eid r today now).2 = db ∧
    ((r.fullQty > remainingOf db eid Tier.full ∧
      (bookRoute db eid r today now).1 =
        BookResult.capacityFull (remainingOf db eid Tier.full)) ∨
     (r.fullQty ≤ remainingOf db eid Tier.full ∧
      r.concessionQty > remainingOf db eid Tier.concession ∧
      (bookRoute db eid r today now).1 =
        BookResult.capacityConcession (remainingOf db eid Tier.concession))) ∧
    (∀ tk ∈ db.tickets, tk.eventId = eid →
      remainingOf db eid tk.type =
        tk.quantity - bookedSum db.bookings eid tk.type) := by
  have hledger : ∀ tk ∈ db.tickets, tk.eventId = eid →
      remainingOf db eid tk.type =
        tk.quantity - bookedSum db.bookings eid tk.type := by
    intro tk htk he
    have h := remainingOf_unique db tk hU htk
    rw [he] at h
    exact h
  rw [bookRoute_past_gates db eid r today now ev hname hemail htot0 htotmax
    hev hdate]
  by_cases hf : r.fullQty > remainingOf db eid Tier.full
  · rw [if_pos hf]
    exact ⟨rfl, Or.inl ⟨hf, rfl⟩, hledger⟩
  · rcases hexceed with hfx | hc
    · exact absurd hfx hf
    · rw [if_neg hf, if_pos hc]
      exact ⟨rfl, Or.inr ⟨le_of_not_lt hf, hc, rfl⟩, hledger⟩

/-- Witness for C2: Bob's {full: 1} request against the state after
Alice's booking, where `full` has remaining 0. -/
theorem capacity_rejection_witness :
    (bookRoute dbAfterAlice 1 reqBob 0 200).2 = dbAfterAlice ∧
    (bookRoute dbAfterAlice 1 reqBob 0 200).1 =
      BookResult.capacityFull (remainingOf dbAfterAlice 1 Tier.full) := by
  obtain ⟨h2, hd, -⟩ := capacity_rejection dbAfterAlice 1 reqBob 0 200 eventE
    (by unfold TicketsUnique; decide) (by decide) (by decide) (by decide)
    (by decide) (by decide) (by decide) (by decide)
  rcases hd with ⟨-, h⟩ | ⟨hle, -, -⟩
  · exact ⟨h2, h⟩
  · exact absurd hle (by decide)

-- ---------------------------------------------------------------------------
-- C5: no negative-quantity validation step exists
-- ---------------------------------------------------------------------------

/-- C3 counterexample: `dbNotified` holds one entry in the allegedly
terminal state `notified`; running the remove route on it changes its
status to `removed`, so a `notified` entry does transition again,
contradicting the claim that `markNotified`/`remove` on a
`notified`/`removed` entry no-op or error. -/
theorem remove_on_notified_changes_status :
    dbNotified.waitlist.map (fun w => w.status) = [WaitStatus.notified] ∧
    (removeWaitlist dbNotified 1).waitlist.map (fun w => w.status) =
      [WaitStatus.removed] := by
  constructor <;> decide

/-- C3 (amended): the remove and notify routes update the addressed
entry's status unconditionally — remove always sets `removed` and notify
always sets `notified` (with `notified_at` refreshed), whatever the
current status is, while entries with a different id are untouched; the
states `notified` and `removed` are therefore not terminal. -/
theorem waitlist_status_updates_unconditional (db : DB) (wid : Nat)
    (now : Nat) :
    (∀ w ∈ (removeWaitlist db wid).waitlist,
        w.waitlistId = wid → w.status = WaitStatus.removed) ∧
    (∀ w ∈ (notifyWaitlist db wid now).waitlist,
        w.waitlistId = wid →
          w.status = WaitStatus.notified ∧ w.notifiedAt = some now) ∧
    (∀ w ∈ db.waitlist, w.waitlistId ≠ wid →
        w ∈ (removeWaitlist db wid).waitlist ∧
        w ∈ (notifyWaitlist db wid now).waitlist) := by
  refine ⟨?_, ?_, ?_⟩
  · intro w hw hid
    simp only [removeWaitlist, List.mem_map] at hw
    obtain ⟨a, _, hfa⟩ := hw
    by_cases h : a.waitlistId = wid
    · rw [if_pos h] at hfa
      rw [← hfa]
    · rw [if_neg h] at hfa
      subst hfa
      exact absurd hid h
  · intro w hw hid
    simp only [notifyWaitlist, List.mem_map] at hw
    obtain ⟨a, _, hfa⟩ := hw
    by_cases h : a.waitlistId = wid
    · rw [if_pos h] at hfa
      rw [← hfa]
      exact ⟨rfl, rfl⟩
    · rw [if_neg h] at hfa
      subst hfa
      exact absurd hid h
  · intro w hw hne
    constructor
    · simp only [removeWaitlist]
      exact List.mem_map.mpr ⟨w, hw, by rw [if_neg hne]⟩
    · simp only [notifyWaitlist]
      exact List.mem_map.mpr ⟨w, hw, by rw [if_neg hne]⟩

/-- Witness for the amended C3 theorem at the concrete state
`dbNotified`. -/
theorem waitlist_status_updates_unconditional_witness :
    entryRemoved ∈ (removeWaitlist dbNotified 1).waitlist ∧
    entryRemoved.waitlistId = 1 ∧
    entryRemoved.status = WaitStatus.removed :=
  ⟨by decide, by decide,
    (waitlist_status_updates_unconditional dbNotified 1 5).1 entryRemoved
      (by decide) (by decide)⟩

-- ---------------------------------------------------------------------------
-- C4: clamped remaining and sold-out
-- ---------------------------------------------------------------------------

/-- C4: the event page's remaining list clamps each tier's remaining
(configured quantity minus booked sum) at zero, `isSoldOut` holds exactly
when the sum of the clamped remainders is zero, and in the spec's scenario
(full 2 / concession 1, Alice books {full: 2}) the remaining list is
{full: 0, concession: 1} and the event is not sold out. -/
theorem computeRemaining_clamps_and_isSoldOut (db : DB) (eid : Nat) :
    (∀ pr ∈ computeRemaining db eid, 0 ≤ pr.2) ∧
    (∀ tk ∈ db.tickets, tk.eventId = eid →
       (tk.type, max 0 (tk.quantity - bookedSum db.bookings eid tk.type)) ∈
         computeRemaining db eid) ∧
    (isSoldOut db eid = true ↔ totalRemaining db eid = 0) ∧
    computeRemaining dbAfterAlice 1 = [(Tier.full, 0), (Tier.concession, 1)] ∧
    isSoldOut dbAfterAlice 1 = false := by
  refine ⟨?_, ?_, ?_, by decide, by decide⟩
  · intro pr hpr
    unfold computeRemaining at hpr
    simp only [List.mem_map] at hpr
    obtain ⟨tk, _, rfl⟩ := hpr
    exact le_max_left 0 _
  · intro tk htk heq
    unfold computeRemaining
    exact List.mem_map.mpr ⟨tk, List.mem_filter.mpr ⟨htk, by simp [heq]⟩, rfl⟩
  · simp [isSoldOut]

/-- Witness for the C4 theorem at the spec's scenario state. -/
theorem computeRemaining_clamps_and_isSoldOut_witness :
    ((Tier.full, (2 : Int)) ∈ computeRemaining dbScenario 1 ∧
      (0 : Int) ≤ (Tier.full, (2 : Int)).2) ∧
    (ticketFull1 ∈ dbScenario.tickets ∧ ticketFull1.eventId = 1 ∧
      (ticketFull1.type,
        max 0 (ticketFull1.quantity - bookedSum dbScenario.bookings 1 ticketFull1.type)) ∈
          computeRemaining dbScenario 1) :=
  ⟨⟨by decide,
    (computeRemaining_clamps_and_isSoldOut dbScenario 1).1 (Tier.full, 2)
      (by decide)⟩,
   ⟨by decide, by decide,
    (computeRemaining_clamps_and_isSoldOut dbScenario 1).2.1 ticketFull1
      (by decide) (by decide)⟩⟩

-- ---------------------------------------------------------------------------
-- C6: attendee-name validation
-- ---------------------------------------------------------------------------

/-- C6 counterexample: a booking request whose attendee name has 101
characters is accepted by the booking route, contradicting the claimed
upper bound of 100 on the name length. -/
theorem long_name_accepted :
    reqLongName.attendeeName.length = 101 ∧
    (bookRoute dbRoomy 1 reqLongName 0 50).1 = BookResult.success := by
  constructor <;> decide

/-- C6 (amended): the booking route rejects an attendee name exactly when
it is shorter than 2 characters (absent names have length 0); no upper
bound on the length is enforced. -/
theorem name_check_min_only (db : DB) (eid : Nat) (r : BookRequest)
    (today : Int) (now : Nat) :
    (bookRoute db eid r today now).1 = BookResult.nameError ↔
      r.attendeeName.length < 2 := by
  unfold bookRoute
  by_cases h1 : r.attendeeName = "" ∨ r.attendeeName.length < 2
  · rw [if_pos h1]
    refine iff_of_true rfl ?_
    rcases h1 with he | hl
    · rw [he]
      decide
    · exact hl
  · rw [if_neg h1]
    have hlen : ¬ r.attendeeName.length < 2 := fun hl => h1 (Or.inr hl)
    refine iff_of_false ?_ hlen
    repeat' split
    all_goals simp

-- ---------------------------------------------------------------------------
-- C8: MAX_PER_BOOKING bound checked before any lookup
-- ---------------------------------------------------------------------------

/-- C8: a booking request totalling 11 tickets is always rejected, the
state is unchanged, and the outcome is the same against any other database
state, event id, date and timestamp — the quantity bound is decided before
the event or capacity is ever consulted. -/
theorem total_eleven_always_rejected (db db' : DB) (eid eid' : Nat)
    (r : BookRequest) (today today' : Int) (now now' : Nat)
    (h : r.fullQty + r.concessionQty = 11) :
    (bookRoute db eid r today now).2 = db ∧
    (bookRoute db eid r today now).1 ≠ BookResult.success ∧
    (bookRoute db eid r today now).1 = (bookRoute db' eid' r today' now').1 := by
  have h0 : ¬ (r.fullQty + r.concessionQty = 0) := by
    rw [h]
    decide
  have hmax : r.fullQty + r.concessionQty > maxTicketsPerBooking := by
    rw [h]
    decide
  unfold bookRoute
  by_cases h1 : r.attendeeName = "" ∨ r.attendeeName.length < 2
  · rw [if_pos h1, if_pos h1]
    exact ⟨rfl, by simp, rfl⟩
  · rw [if_neg h1, if_neg h1]
    by_cases h2 : r.attendeeEmail ≠ "" ∧ isValidEmail r.attendeeEmail = false
    · rw [if_pos h2, if_pos h2]
      exact ⟨rfl, by simp, rfl⟩
    · rw [if_neg h2, if_neg h2, if_neg h0, if_neg h0, if_pos hmax, if_pos hmax]
      exact ⟨rfl, by simp, rfl⟩

/-- Witness for C8: the concrete 6+5 request against two different
states. -/
theorem total_eleven_always_rejected_witness :
    reqEleven.fullQty + reqEleven.concessionQty = 11 ∧
    ((bookRoute dbRoomy 1 reqEleven 0 50).2 = dbRoomy ∧
     (bookRoute dbRoomy 1 reqEleven 0 50).1 ≠ BookResult.success ∧
     (bookRoute dbRoomy 1 reqEleven 0 50).1 =
       (bookRoute dbScenario 2 reqEleven 5 60).1) :=
  ⟨by decide,
   total_eleven_always_rejected dbRoomy dbScenario 1 2 reqEleven 0 5 50 60
     (by decide)⟩

-- ---------------------------------------------------------------------------
-- C7: FIFO ordering and positions in listWaiting
-- ---------------------------------------------------------------------------

theorem waitRows_single_aux (events : List Event) (eid : Nat) (e : Event)
    (hev : events.find? (fun x => x.eventId == eid) = some e)
    (l : List WaitlistEntry) (hall : ∀ w ∈ l, w.eventId = eid) :
    l.filterMap (fun w =>
      if w.status = WaitStatus.waiting then
        (events.find? (fun x => x.eventId == w.eventId)).map
          (fun x => ({ entry := w, eventDate := x.eventDate } : WaitRow))
      else none) =
    (l.filter (fun w => w.status == WaitStatus.waiting)).map
      (fun w => { entry := w, eventDate := e.eventDate }) := by
  induction l with
  | nil => rfl
  | cons w t ih =>
    have hw : w.eventId = eid := hall w (List.mem_cons_self w t)
    have ht := ih (fun x hx => hall x (List.mem_cons_of_mem w hx))
    rw [List.filterMap_cons, List.filter_cons]
    by_cases hs : w.status = WaitStatus.waiting
    · rw [if_pos hs, hw, hev]
      simp only [Option.map_some', hs, beq_self_eq_true, if_true,
        List.map_cons, ht]
    · rw [if_neg hs]
      have hsb : (w.status == WaitStatus.waiting) = false := by
        simp [hs]
      rw [hsb]
      simp only [Bool.false_eq_true, if_false, ht]

/-- The join rows of a single-event waitlist, in table order. -/
theorem waitRows_single (db : DB) (eid : Nat) (e : Event)
    (hall : ∀ w ∈ db.waitlist, w.eventId = eid)
    (hev : db.events.find? (fun x => x.eventId == eid) = some e) :
    waitRows db = (waitingEntries db).map
      (fun w => { entry := w, eventDate := e.eventDate }) :=
  waitRows_single_aux db.events eid e hev db.waitlist hall

theorem sorted_map_const_date (l : List WaitlistEntry) (d : Int)
    (hinc : l.Pairwise (fun a b => a.requestedAt < b.requestedAt)) :
    (l.map (fun w => ({ entry := w, eventDate := d } : WaitRow))).Sorted rowLe := by
  show (l.map (fun w => ({ entry := w, eventDate := d } : WaitRow))).Pairwise rowLe
  rw [List.pairwise_map]
  exact hinc.imp (fun {a b} hab => Or.inr ⟨rfl, le_of_lt hab⟩)

theorem dedup_const {α : Type} [DecidableEq α] (l : List α) (a : α)
    (hne : l ≠ []) (hall : ∀ x ∈ l, x = a) : l.dedup = [a] := by
  induction l with
  | nil => exact absurd rfl hne
  | cons x t ih =>
    have hx : x = a := hall x (List.mem_cons_self x t)
    subst hx
    cases t with
    | nil => rfl
    | cons y u =>
      have hy : y = x := (hall y (List.mem_cons_of_mem x (List.mem_cons_self y u))).trans
        (hall x (List.mem_cons_self x (y :: u))).symm
      have hmem : x ∈ y :: u := by
        rw [hy]
        exact List.mem_cons_self x u
      rw [List.dedup_cons_of_mem hmem]
      exact ih (by simp) (fun z hz => hall z (List.mem_cons_of_mem x hz))

/-- C7: in a state whose waitlist entries all belong to one existing event
and whose waiting entries have strictly increasing `requested_at` in table
order, the organiser waitlist view consists of that single event group,
holding exactly the waiting entries in their original order with positions
1..N (`index + 1`). -/
theorem listWaiting_fifo (db : DB) (eid : Nat) (e : Event)
    (hall : ∀ w ∈ db.waitlist, w.eventId = eid)
    (hev : db.events.find? (fun x => x.eventId == eid) = some e)
    (hinc : (waitingEntries db).Pairwise
      (fun a b => a.requestedAt < b.requestedAt))
    (hne : waitingEntries db ≠ []) :
    listWaiting db =
      [(eid,
        (((waitingEntries db).map
          (fun w => ({ entry := w, eventDate := e.eventDate } : WaitRow))).enum).map
          (fun p => (p.2, p.1 + 1)))] := by
  have hrows : waitRows db = (waitingEntries db).map
      (fun w => { entry := w, eventDate := e.eventDate }) :=
    waitRows_single db eid e hall hev
  have hsorted : sortedRows db = (waitingEntries db).map
      (fun w => { entry := w, eventDate := e.eventDate }) := by
    unfold sortedRows
    rw [hrows]
    exact List.Sorted.insertionSort_eq
      (sorted_map_const_date (waitingEntries db) e.eventDate hinc)
  have hsub : ∀ w ∈ waitingEntries db, w.eventId = eid := fun w hw =>
    hall w (List.mem_of_mem_filter hw)
  have hids : eventIdsAsc ((waitingEntries db).map
      (fun w => ({ entry := w, eventDate := e.eventDate } : WaitRow))) = [eid] := by
    unfold eventIdsAsc
    rw [List.map_map]
    rw [dedup_const _ eid (by simp [hne])
      (fun x hx => by
        obtain ⟨w, hw, rfl⟩ := List.mem_map.mp hx
        exact hsub w hw)]
    rfl
  have hfilter : ((waitingEntries db).map
      (fun w => ({ entry := w, eventDate := e.eventDate } : WaitRow))).filter
        (fun rw => rw.entry.eventId == eid) =
      (waitingEntries db).map
        (fun w => ({ entry := w, eventDate := e.eventDate } : WaitRow)) := by
    refine List.filter_eq_self.mpr (fun rw hrw => ?_)
    obtain ⟨w, hw, rfl⟩ := List.mem_map.mp hrw
    simp [hsub w hw]
  unfold listWaiting
  rw [hsorted, hids, List.map_singleton, hfilter]

/-- Witness for C7: the two-entry waitlist of `dbFifo` lists Ann then Ben
with positions 1 and 2. -/
theorem listWaiting_fifo_witness :
    listWaiting dbFifo =
      [(1,
        (((waitingEntries dbFifo).map
          (fun w => ({ entry := w, eventDate := eventE.eventDate } : WaitRow))).enum).map
          (fun p => (p.2, p.1 + 1)))] :=
  listWaiting_fifo dbFifo 1 eventE (by decide) (by decide)
    (by decide) (by decide)

-- ---------------------------------------------------------------------------
-- C9: duplicate waitlist joins
-- ---------------------------------------------------------------------------

theorem waitlistRoute_duplicate_rejected (db : DB) (eid : Nat)
    (r : WaitRequest) (now : Nat)
    (hdup : ∃ w ∈ db.waitlist, w.eventId = eid ∧
      w.attendeeEmail = r.attendeeEmail ∧ w.status = WaitStatus.waiting) :
    (waitlistRoute db eid r now).2 = db ∧
    ((waitlistRoute db eid r now).1).isJoined = false := by
  obtain ⟨w, hw, h1, h2, h3⟩ := hdup
  have hfind : db.waitlist.find? (fun x =>
      x.eventId == eid && x.attendeeEmail == r.attendeeEmail &&
      x.status == WaitStatus.waiting) ≠ none := by
    intro hnone
    exact List.find?_eq_none.mp hnone w hw (by simp [h1, h2, h3])
  unfold waitlistRoute
  repeat' split
  all_goals
    first
    | exact ⟨rfl, rfl⟩
    | (rename_i hnone; exact absurd hnone hfind)

theorem waitlistRoute_snd_cases (db : DB) (eid : Nat) (r : WaitRequest)
    (now : Nat) :
    (waitlistRoute db eid r now).2 = db ∨
      (db.waitlist.find? (fun w =>
          w.eventId == eid && w.attendeeEmail == r.attendeeEmail &&
          w.status == WaitStatus.waiting) = none ∧
       (waitlistRoute db eid r now).2 = joinInsert db eid r now) := by
  unfold waitlistRoute
  repeat' split
  any_goals (left; rfl)
  rename_i hnone
  exact Or.inr ⟨hnone, rfl⟩

theorem bookRoute_waitlist (db : DB) (eid : Nat) (r : BookRequest)
    (today : Int) (now : Nat) :
    ((bookRoute db eid r today now).2).waitlist = db.waitlist := by
  rcases bookRoute_snd_cases db eid r today now with h | ⟨-, -, h⟩ <;> rw [h]
  exact (commitBookings_fields db eid r now).2.2

theorem atMostOne_map_status {db : DB} {f : WaitlistEntry → WaitlistEntry}
    (hf : ∀ a, f a = a ∨
      ((f a).status ≠ WaitStatus.waiting ∧ (f a).eventId = a.eventId ∧
       (f a).attendeeEmail = a.attendeeEmail))
    (h : AtMostOneWaiting db) :
    (db.waitlist.map f).Pairwise (fun a b =>
      a.status = WaitStatus.waiting → b.status = WaitStatus.waiting →
      a.eventId = b.eventId → a.attendeeEmail ≠ b.attendeeEmail) := by
  rw [List.pairwise_map]
  refine h.imp (fun {a b} hab => ?_)
  intro ha hb he
  rcases hf a with hfa | ⟨hsa, -, -⟩
  · rcases hf b with hfb | ⟨hsb, -, -⟩
    · rw [hfa] at ha he ⊢
      rw [hfb] at hb he ⊢
      exact hab ha hb he
    · exact absurd hb hsb
  · exact absurd ha hsa

theorem atMostOne_applyOp (db : DB) (op : Op) (h : AtMostOneWaiting db) :
    AtMostOneWaiting (applyOp db op) := by
  cases op with
  | book eid r today now =>
    unfold AtMostOneWaiting at *
    rw [show (applyOp db (Op.book eid r today now)).waitlist = db.waitlist from
      bookRoute_waitlist db eid r today now]
    exact h
  | joinWaitlist eid r now =>
    rcases waitlistRoute_snd_cases db eid r now with hs | ⟨hnone, hs⟩
    · show AtMostOneWaiting ((waitlistRoute db eid r now).2)
      rw [hs]
      exact h
    · show AtMostOneWaiting ((waitlistRoute db eid r now).2)
      rw [hs]
      unfold AtMostOneWaiting joinInsert
      rw [List.pairwise_append]
      refine ⟨h, List.pairwise_singleton _ _, ?_⟩
      intro a ha b hb
      rw [List.mem_singleton] at hb
      subst hb
      intro hsa hsb hea heq
      have hnp := List.find?_eq_none.mp hnone a ha
      apply hnp
      have hea' : a.eventId = eid := hea
      have heq' : a.attendeeEmail = r.attendeeEmail := heq
      simp [hea', heq', hsa]
  | removeEntry wid =>
    unfold AtMostOneWaiting
    show (db.waitlist.map _).Pairwise _
    refine atMostOne_map_status (fun a => ?_) h
    by_cases hid : a.waitlistId = wid
    · rw [if_pos hid]
      exact Or.inr ⟨(by decide : WaitStatus.removed ≠ WaitStatus.waiting), rfl, rfl⟩
    · rw [if_neg hid]
      exact Or.inl rfl
  | notifyEntry wid now =>
    unfold AtMostOneWaiting
    show (db.waitlist.map _).Pairwise _
    refine atMostOne_map_status (fun a => ?_) h
    by_cases hid : a.waitlistId = wid
    · rw [if_pos hid]
      exact Or.inr ⟨(by decide : WaitStatus.notified ≠ WaitStatus.waiting), rfl, rfl⟩
    · rw [if_neg hid]
      exact Or.inl rfl

/-- C9: a second waitlist join for an (event, email) pair that still has a
`waiting` entry is turned away before any insert — the state is unchanged
and the outcome is not an accepted join — and consequently, from any state
with at most one waiting entry per (event, email), every sequence of
sequentially executed requests preserves that bound. -/
theorem waitlist_duplicate_prevention (db : DB) (eid : Nat) (r : WaitRequest)
    (now : Nat) (ops : List Op)
    (hdup : ∃ w ∈ db.waitlist, w.eventId = eid ∧
      w.attendeeEmail = r.attendeeEmail ∧ w.status = WaitStatus.waiting)
    (hinv : AtMostOneWaiting db) :
    ((waitlistRoute db eid r now).2 = db ∧
     ((waitlistRoute db eid r now).1).isJoined = false) ∧
    AtMostOneWaiting (runOps db ops) := by
  refine ⟨waitlistRoute_duplicate_rejected db eid r now hdup, ?_⟩
  clear hdup
  induction ops generalizing db with
  | nil => exact hinv
  | cons op rest ih => exact ih (applyOp db op) (atMostOne_applyOp db op hinv)

/-- Witness for C9: Carol's second join against `dbOneWaiting` is
rejected, and a mixed sequence of further requests keeps the at-most-one
bound. -/
theorem waitlist_duplicate_prevention_witness :
    ((waitlistRoute dbOneWaiting 1 reqCarolAgain 150).2 = dbOneWaiting ∧
     ((waitlistRoute dbOneWaiting 1 reqCarolAgain 150).1).isJoined = false) ∧
    AtMostOneWaiting (runOps dbOneWaiting opsAfterDup) :=
  waitlist_duplicate_prevention dbOneWaiting 1 reqCarolAgain 150 opsAfterDup
    (by decide) (by unfold AtMostOneWaiting; decide)

-- ---------------------------------------------------------------------------
-- C10: waitlist join never consults remaining capacity
-- ---------------------------------------------------------------------------

/-- C10 (implicit): a waitlist join that passes the join validation is
accepted and inserts a `waiting` entry even when the event is not sold out
— the hypothesis that some tier of the event has positive remaining
capacity is never used, because the route reads neither tickets nor
bookings. -/
theorem waitlist_join_ignores_capacity (db : DB) (eid : Nat) (r : WaitRequest)
    (now : Nat) (ev : Event) (tk : Ticket)
    (hname : 2 ≤ r.attendeeName.length)
    (hne : r.attendeeEmail ≠ "")
    (hemail : isValidEmail r.attendeeEmail = true)
    (hqty1 : 1 ≤ r.quantity) (hqty2 : r.quantity ≤ maxTicketsPerBooking)
    (hev : findPublishedEvent db eid = some ev)
    (hnodup : ∀ w ∈ db.waitlist, ¬(w.eventId = eid ∧
      w.attendeeEmail = r.attendeeEmail ∧ w.status = WaitStatus.waiting))
    (htk : tk ∈ db.tickets) (hte : tk.eventId = eid)
    (hpos : 0 < tk.quantity - bookedSum db.bookings eid tk.type) :
    (waitlistRoute db eid r now).1 =
      WaitResult.joined (joinPosition (joinInsert db eid r now) eid now) ∧
    (waitlistRoute db eid r now).2.waitlist =
      db.waitlist ++ [mkWaitlistEntry db eid r now] ∧
    (mkWaitlistEntry db eid r now).status = WaitStatus.waiting := by
  have h1 : ¬ (r.attendeeName = "" ∨ r.attendeeName.length < 2) := by
    rintro (he | hl)
    · rw [he] at hname
      exact absurd hname (by decide)
    · omega
  have h2 : ¬ (r.attendeeEmail = "" ∨ isValidEmail r.attendeeEmail = false) := by
    rintro (he | hv)
    · exact hne he
    · rw [hemail] at hv
      exact absurd hv (by decide)
  have h3 : ¬ (r.quantity < 1 ∨ r.quantity > maxTicketsPerBooking) := by
    rintro (hq | hq) <;> omega
  have hfind : db.waitlist.find? (fun w =>
      w.eventId == eid && w.attendeeEmail == r.attendeeEmail &&
      w.status == WaitStatus.waiting) = none := by
    refine List.find?_eq_none.mpr (fun x hx hpx => ?_)
    simp only [Bool.and_eq_true, beq_iff_eq] at hpx
    exact hnodup x hx ⟨hpx.1.1, hpx.1.2, hpx.2⟩
  unfold waitlistRoute
  rw [if_neg h1, if_neg h2, if_neg h3]
  simp only [hev, hfind]
  exact ⟨trivial, rfl, rfl⟩

/-- Witness for C10: Dave joins the waitlist of event 1 while `full` still
has 5 of 5 seats remaining. -/
theorem waitlist_join_ignores_capacity_witness :
    (waitlistRoute dbOneWaiting 1 reqDave 150).1 =
      WaitResult.joined (joinPosition (joinInsert dbOneWaiting 1 reqDave 150) 1 150) ∧
    (waitlistRoute dbOneWaiting 1 reqDave 150).2.waitlist =
      dbOneWaiting.waitlist ++ [mkWaitlistEntry dbOneWaiting 1 reqDave 150] ∧
    (mkWaitlistEntry dbOneWaiting 1 reqDave 150).status = WaitStatus.waiting :=
  waitlist_join_ignores_capacity dbOneWaiting 1 reqDave 150 eventE ticketFull5
    (by decide) (by decide) (by decide) (by decide) (by decide) (by decide)
    (by decide) (by decide) (by decide) (by decide)

end Engine
